import Mathlib

/-!
Verification of the `cothread` PV wrapper (`src/cothread/pv.py`).

The module wraps Channel Access subscriptions behind two caches:

* `PV` — a single-value cache: the latest delivered value, a wait slot
  (`cothread.Event`), and a construction-time deadline.
* `PV_array` — an array cache over N subscriptions: per-slot `values`,
  `seen`, `ok`, `timestamp`, `severity`, `status` arrays, updated by
  `_update_one` and batch-filled by `sync`.

The external collaborators (`cothread.Event`, `catools.camonitor` monitors)
are not part of the visible source; where a definition depends on them it is
modelled from the specification and marked as such in its doc comment.
-/

/-- Error kind raised by a timed-out wait on the Blocking Primitive. -/
inductive CAErr
  | timeout
deriving DecidableEq, Repr

/-- A delivered Channel Access value: validity flag, payload and metadata.
The payload and metadata are modelled as integers; on an invalid delivery
(`ok = false`) the metadata fields are meaningless (the real augmented value
carries them only on success), and the code never reads them in that case. -/
structure CAValue where
  ok : Bool
  data : Int
  timestamp : Int
  severity : Int
  status : Int
deriving DecidableEq, Repr

/-- Modelled from the spec: `Monitor.close` releases one subscription and is
idempotent.  A monitor handle is `true` while the subscription is held. -/
def Monitor.close (_ : Bool) : Bool := false

/-! ## The single-value cache `PV` -/

/-- State of a `PV` object: `value` is `self.__value` (absent until the first
update), `event` is the wait slot, `deadline` is the fixed construction-time
deadline `self.__deadline`, and `monitor` the subscription handle.
The wait slot is modelled from the spec's Blocking Primitive: a single-slot
signal holding the last signalled value when signalled (`some v`) and `none`
when reset. -/
structure PVState (α : Type) where
  value : Option α
  event : Option α
  deadline : Nat
  monitor : Bool
deriving DecidableEq, Repr

/-- The state of a freshly constructed `PV`: no value yet, wait slot clear,
deadline fixed to `d`, subscription held. -/
def PVState.init (α : Type) (d : Nat) : PVState α :=
  ⟨none, none, d, true⟩

/-- Modelled from the spec: the Blocking Primitive's `wait(timeout)` when no
further update arrives during the wait — returns the stored value if the slot
is signalled, otherwise fails with `Timeout` once the timeout elapses. -/
def Event.Wait (e : Option α) (_timeout : Nat) : Except CAErr α :=
  match e with
  | some v => Except.ok v
  | none => Except.error CAErr.timeout

/-- `PV._on_update`: store the delivered value and signal the wait slot with
it.  (The optional user callback receives `self` and is outside the state.) -/
def PV.on_update (s : PVState α) (v : α) : PVState α :=
  { s with value := some v, event := some v }

/-- `PV.reset`: clear the wait slot so the next `get_next` blocks. -/
def PV.reset (s : PVState α) : PVState α :=
  { s with event := none }

/-- `PV.get_next(timeout, reset)`: optionally reset first, then wait on the
event.  Returns the wait outcome together with the resulting state. -/
def PV.get_next (s : PVState α) (timeout : Nat) (reset : Bool) :
    Except CAErr α × PVState α :=
  let s' := if reset then PV.reset s else s
  (Event.Wait s'.event timeout, s')

/-- `PV.get`: return the current value if present, else behave as
`get_next(deadline)`. -/
def PV.get (s : PVState α) : Except CAErr α × PVState α :=
  match s.value with
  | none => PV.get_next s s.deadline false
  | some v => (Except.ok v, s)

/-- `PV.close`: release the subscription. -/
def PV.close (s : PVState α) : PVState α :=
  { s with monitor := Monitor.close s.monitor }

/-- Deliver a sequence of updates through `_on_update`, in order. -/
def PV.deliver (s : PVState α) (us : List α) : PVState α :=
  us.foldl PV.on_update s

/-! ## The array cache `PV_array` -/

/-- State of a `PV_array` object: the six parallel arrays (modelled as lists)
and the list of monitor handles.  `values` holds one payload per slot
(`count = 1`); all arrays start as zeros per `numpy.zeros`. -/
structure ArrayState where
  values : List Int
  seen : List Bool
  ok : List Bool
  timestamp : List Int
  severity : List Int
  status : List Int
  monitors : List Bool
deriving DecidableEq, Repr

/-- The state of a freshly constructed `PV_array` over `n` names. -/
def ArrayState.init (n : Nat) : ArrayState :=
  ⟨List.replicate n 0, List.replicate n false, List.replicate n false,
   List.replicate n 0, List.replicate n 0, List.replicate n 0,
   List.replicate n true⟩

/-- All six arrays have length `n`. -/
def ArrayState.WF (s : ArrayState) (n : Nat) : Prop :=
  s.values.length = n ∧ s.seen.length = n ∧ s.ok.length = n ∧
  s.timestamp.length = n ∧ s.severity.length = n ∧ s.status.length = n

/-- `PV_array._update_one`: mark the slot seen, record the validity flag, and
on a valid value overwrite the payload and metadata for that slot. -/
def PV_array.update_one (s : ArrayState) (v : CAValue) (i : Nat) : ArrayState :=
  let s1 := { s with seen := s.seen.set i true, ok := s.ok.set i v.ok }
  if v.ok then
    { s1 with
        values := s1.values.set i v.data,
        timestamp := s1.timestamp.set i v.timestamp,
        severity := s1.severity.set i v.severity,
        status := s1.status.set i v.status }
  else s1

/-- The loop body of `PV_array.sync`: walk the fetched values from slot `k`,
applying `_update_one` exactly to the slots not yet seen. -/
def PV_array.syncFrom (s : ArrayState) (fetched : List CAValue) (k : Nat) :
    ArrayState :=
  match fetched with
  | [] => s
  | v :: rest =>
      PV_array.syncFrom
        (if s.seen.getD k false then s else PV_array.update_one s v k)
        rest (k + 1)

/-- `PV_array.sync`, given the values returned by the synchronous batched
read (`caget` over all names, one value per slot, in slot order). -/
def PV_array.sync (s : ArrayState) (fetched : List CAValue) : ArrayState :=
  PV_array.syncFrom s fetched 0

/-- `PV_array.get`: a snapshot of the values array. -/
def PV_array.get (s : ArrayState) : List Int :=
  s.values

/-- `PV_array.all_ok`: `numpy.all` over the `ok` array — true iff every slot
is currently valid (vacuously true when there are no slots). -/
def PV_array.all_ok (s : ArrayState) : Bool :=
  s.ok.all id

/-- `PV_array.close`: close every monitor. -/
def PV_array.close (s : ArrayState) : ArrayState :=
  { s with monitors := s.monitors.map Monitor.close }

/-- Run a trace of asynchronous deliveries `(value, index)` through
`_update_one` from the freshly constructed state. -/
def PV_array.run (n : Nat) (tr : List (CAValue × Nat)) : ArrayState :=
  tr.foldl (fun s u => PV_array.update_one s u.1 u.2) (ArrayState.init n)

/-- The most recent update delivered for slot `i` in a trace, if any. -/
def lastUpdate (tr : List (CAValue × Nat)) (i : Nat) : Option CAValue :=
  ((tr.filter (fun u => u.2 == i)).getLast?).map Prod.fst

/-- The most recent valid (`ok = true`) update delivered for slot `i` in a
trace, if any. -/
def lastValid (tr : List (CAValue × Nat)) (i : Nat) : Option CAValue :=
  ((tr.filter (fun u => u.2 == i && u.1.ok)).getLast?).map Prod.fst

/-! ## Helper lemmas -/

/-- Reading the written slot of `set`, within bounds, gives the new value. -/
theorem getD_set_same (l : List β) (i : Nat) (a b : β) (h : i < l.length) :
    (l.set i a).getD i b = a := by
  rw [List.getD_eq_getElem?_getD, List.getElem?_set_self', List.getElem?_eq_getElem h]
  rfl

/-- Reading a slot other than the written one is unchanged by `set`. -/
theorem getD_set_other (l : List β) (i j : Nat) (a b : β) (h : j ≠ i) :
    (l.set j a).getD i b = l.getD i b := by
  rw [List.getD_eq_getElem?_getD, List.getElem?_set_ne h, List.getD_eq_getElem?_getD]

/-- Reading a slot of `replicate` within bounds gives the replicated value. -/
theorem getD_replicate_lt (n i : Nat) (x d : β) (h : i < n) :
    (List.replicate n x).getD i d = x := by
  rw [List.getD_eq_getElem?_getD, List.getElem?_replicate, if_pos h]
  rfl

/-- `_update_one` always leaves the `seen` array as a single `set` to true. -/
theorem update_one_seen_eq (s : ArrayState) (v : CAValue) (k : Nat) :
    (PV_array.update_one s v k).seen = s.seen.set k true := by
  cases hv : v.ok <;> simp [PV_array.update_one, hv]

/-- `_update_one` always leaves the `ok` array as a single `set`. -/
theorem update_one_ok_eq (s : ArrayState) (v : CAValue) (k : Nat) :
    (PV_array.update_one s v k).ok = s.ok.set k v.ok := by
  cases hv : v.ok <;> simp [PV_array.update_one, hv]

/-- `_update_one` preserves the lengths of all six arrays. -/
theorem update_one_WF (s : ArrayState) (v : CAValue) (k : Nat) (n : Nat)
    (h : s.WF n) : (PV_array.update_one s v k).WF n := by
  obtain ⟨h1, h2, h3, h4, h5, h6⟩ := h
  cases hv : v.ok <;>
    simp [PV_array.update_one, hv, ArrayState.WF, List.length_set, *]

/-- `_update_one` at slot `k` does not change any other slot `i`. -/
theorem update_one_other_slot (s : ArrayState) (v : CAValue) (k i : Nat)
    (h : k ≠ i) :
    (PV_array.update_one s v k).seen.getD i false = s.seen.getD i false ∧
    (PV_array.update_one s v k).ok.getD i false = s.ok.getD i false ∧
    (PV_array.update_one s v k).values.getD i 0 = s.values.getD i 0 ∧
    (PV_array.update_one s v k).timestamp.getD i 0 = s.timestamp.getD i 0 ∧
    (PV_array.update_one s v k).severity.getD i 0 = s.severity.getD i 0 ∧
    (PV_array.update_one s v k).status.getD i 0 = s.status.getD i 0 := by
  cases hv : v.ok <;>
    simp [PV_array.update_one, hv, List.getElem?_set_ne h]

/-- `seen[i]` is monotone under `_update_one` at any slot. -/
theorem update_one_seen_mono (s : ArrayState) (v : CAValue) (k i : Nat)
    (h : s.seen.getD i false = true) :
    (PV_array.update_one s v k).seen.getD i false = true := by
  rw [update_one_seen_eq]
  by_cases hk : k = i
  · subst hk
    by_cases hl : k < s.seen.length
    · rw [getD_set_same _ _ _ _ hl]
    · rw [List.set_eq_of_length_le (Nat.le_of_not_lt hl)]
      exact h
  · rw [getD_set_other _ _ _ _ _ hk]
    exact h

/-- `seen[i]` is monotone under the `sync` loop. -/
theorem syncFrom_seen_mono (f : List CAValue) (s : ArrayState) (k i : Nat)
    (h : s.seen.getD i false = true) :
    (PV_array.syncFrom s f k).seen.getD i false = true := by
  induction f generalizing s k with
  | nil => exact h
  | cons v rest ih =>
      simp only [PV_array.syncFrom]
      by_cases hk : s.seen.getD k false = true
      · rw [if_pos hk]
        exact ih _ _ h
      · rw [if_neg hk]
        exact ih _ _ (update_one_seen_mono _ _ _ _ h)

/-- The `sync` loop never touches a slot that was already seen when it
started: all six arrays read the same at that slot afterwards. -/
theorem syncFrom_frozen_slot (f : List CAValue) (s : ArrayState) (k i : Nat)
    (h : s.seen.getD i false = true) :
    (PV_array.syncFrom s f k).seen.getD i false = s.seen.getD i false ∧
    (PV_array.syncFrom s f k).ok.getD i false = s.ok.getD i false ∧
    (PV_array.syncFrom s f k).values.getD i 0 = s.values.getD i 0 ∧
    (PV_array.syncFrom s f k).timestamp.getD i 0 = s.timestamp.getD i 0 ∧
    (PV_array.syncFrom s f k).severity.getD i 0 = s.severity.getD i 0 ∧
    (PV_array.syncFrom s f k).status.getD i 0 = s.status.getD i 0 := by
  induction f generalizing s k with
  | nil => exact ⟨rfl, rfl, rfl, rfl, rfl, rfl⟩
  | cons v rest ih =>
      simp only [PV_array.syncFrom]
      by_cases hk : s.seen.getD k false = true
      · rw [if_pos hk]
        exact ih _ _ h
      · rw [if_neg hk]
        have hne : k ≠ i := by
          intro he
          exact hk (he ▸ h)
        obtain ⟨e1, e2, e3, e4, e5, e6⟩ := update_one_other_slot s v k i hne
        have hseen' : (PV_array.update_one s v k).seen.getD i false = true :=
          e1.trans h
        obtain ⟨f1, f2, f3, f4, f5, f6⟩ := ih (PV_array.update_one s v k) (k + 1) hseen'
        exact ⟨f1.trans e1, f2.trans e2, f3.trans e3, f4.trans e4,
               f5.trans e5, f6.trans e6⟩

/-- The `sync` loop preserves the length of the `seen` array. -/
theorem syncFrom_seen_length (f : List CAValue) (s : ArrayState) (k : Nat) :
    (PV_array.syncFrom s f k).seen.length = s.seen.length := by
  induction f generalizing s k with
  | nil => rfl
  | cons v rest ih =>
      simp only [PV_array.syncFrom]
      by_cases hk : s.seen.getD k false = true
      · rw [if_pos hk]
        exact ih _ _
      · rw [if_neg hk]
        rw [ih _ _, update_one_seen_eq, List.length_set]

/-- Every slot the `sync` loop visits, in range of the `seen` array, is seen
afterwards — whether or not the fetched value for it was valid. -/
theorem syncFrom_marks_seen (f : List CAValue) (s : ArrayState) (k i : Nat)
    (hk : k ≤ i) (hlt : i < k + f.length) (hlen : i < s.seen.length) :
    (PV_array.syncFrom s f k).seen.getD i false = true := by
  induction f generalizing s k with
  | nil =>
      simp only [List.length_nil] at hlt
      omega
  | cons v rest ih =>
      simp only [List.length_cons] at hlt
      simp only [PV_array.syncFrom]
      rcases Nat.eq_or_lt_of_le hk with he | hlt2
      · subst he
        by_cases hs : s.seen.getD k false = true
        · rw [if_pos hs]
          exact syncFrom_seen_mono _ _ _ _ hs
        · rw [if_neg hs]
          refine syncFrom_seen_mono _ _ _ _ ?_
          rw [update_one_seen_eq, getD_set_same _ _ _ _ hlen]
      · by_cases hs : s.seen.getD k false = true
        · rw [if_pos hs]
          exact ih _ _ hlt2 (by omega) hlen
        · rw [if_neg hs]
          refine ih _ _ hlt2 (by omega) ?_
          rw [update_one_seen_eq, List.length_set]
          exact hlen

/-- If every slot the `sync` loop would visit is already seen, the loop is
the identity. -/
theorem syncFrom_all_seen_id (f : List CAValue) (s : ArrayState) (k : Nat)
    (h : ∀ i, k ≤ i → i < k + f.length → s.seen.getD i false = true) :
    PV_array.syncFrom s f k = s := by
  induction f generalizing k with
  | nil => rfl
  | cons v rest ih =>
      have hk : s.seen.getD k false = true := h k (Nat.le_refl k) (by
        simp only [List.length_cons]
        omega)
      simp only [PV_array.syncFrom]
      rw [if_pos hk]
      exact ih (k + 1) (fun i h1 h2 => h i (by omega) (by
        simp only [List.length_cons]
        omega))

/-- Delivering one more update is one more `_on_update`. -/
theorem deliver_concat (s : PVState α) (l : List α) (v : α) :
    PV.deliver s (l ++ [v]) = PV.on_update (PV.deliver s l) v := by
  simp [PV.deliver, List.foldl_append]

/-- On a valid value, `_update_one` rewrites payload and metadata at the
slot. -/
theorem update_one_fields_of_ok (s : ArrayState) (v : CAValue) (k : Nat)
    (hv : v.ok = true) :
    (PV_array.update_one s v k).values = s.values.set k v.data ∧
    (PV_array.update_one s v k).timestamp = s.timestamp.set k v.timestamp ∧
    (PV_array.update_one s v k).severity = s.severity.set k v.severity ∧
    (PV_array.update_one s v k).status = s.status.set k v.status := by
  simp [PV_array.update_one, hv]

/-- On an invalid value, `_update_one` leaves payload and metadata alone. -/
theorem update_one_fields_of_not_ok (s : ArrayState) (v : CAValue) (k : Nat)
    (hv : v.ok = false) :
    (PV_array.update_one s v k).values = s.values ∧
    (PV_array.update_one s v k).timestamp = s.timestamp ∧
    (PV_array.update_one s v k).severity = s.severity ∧
    (PV_array.update_one s v k).status = s.status := by
  simp [PV_array.update_one, hv]

/-- The fresh array state is well formed. -/
theorem init_WF (n : Nat) : (ArrayState.init n).WF n := by
  refine ⟨?_, ?_, ?_, ?_, ?_, ?_⟩ <;> simp [ArrayState.init]

/-- Running a trace of deliveries preserves well-formedness. -/
theorem run_WF (n : Nat) (tr : List (CAValue × Nat)) :
    (PV_array.run n tr).WF n := by
  suffices h : ∀ s : ArrayState, s.WF n →
      (tr.foldl (fun s u => PV_array.update_one s u.1 u.2) s).WF n from
    h _ (init_WF n)
  induction tr with
  | nil => exact fun s hs => hs
  | cons u rest ih => exact fun s hs => ih _ (update_one_WF _ _ _ _ hs)

/-- Appending one delivery to a trace runs it last. -/
theorem run_concat (n : Nat) (tr : List (CAValue × Nat)) (v : CAValue)
    (j : Nat) :
    PV_array.run n (tr ++ [(v, j)]) =
      PV_array.update_one (PV_array.run n tr) v j := by
  simp [PV_array.run, List.foldl_append]

/-- The most recent update for slot `i` after one more delivery. -/
theorem lastUpdate_concat (tr : List (CAValue × Nat)) (v : CAValue)
    (j i : Nat) :
    lastUpdate (tr ++ [(v, j)]) i =
      if j = i then some v else lastUpdate tr i := by
  by_cases h : j = i
  · subst h
    simp [lastUpdate, List.filter_append, List.getLast?_concat]
  · simp [lastUpdate, List.filter_append, h]

/-- The most recent valid update for slot `i` after one more delivery. -/
theorem lastValid_concat (tr : List (CAValue × Nat)) (v : CAValue)
    (j i : Nat) :
    lastValid (tr ++ [(v, j)]) i =
      if j = i ∧ v.ok = true then some v else lastValid tr i := by
  by_cases hj : j = i
  · subst hj
    cases hv : v.ok
    · simp [lastValid, List.filter_append, hv]
    · simp [lastValid, List.filter_append, hv, List.getLast?_concat]
  · have hcond : ¬(j = i ∧ v.ok = true) := fun hc => hj hc.1
    rw [if_neg hcond]
    simp [lastValid, List.filter_append, hj]

/-- Slot-level characterisation of a run: `seen[i]` and `ok[i]` follow the
most recent update for slot `i`, payload and metadata follow the most
recent valid update for slot `i`, and untouched slots keep their zeros. -/
theorem run_slot_spec (n : Nat) (tr : List (CAValue × Nat)) (i : Nat)
    (htr : ∀ p ∈ tr, p.2 < n) (hi : i < n) :
    (lastUpdate tr i = none →
       (PV_array.run n tr).seen.getD i false = false ∧
       (PV_array.run n tr).ok.getD i false = false) ∧
    (∀ u, lastUpdate tr i = some u →
       (PV_array.run n tr).seen.getD i false = true ∧
       (PV_array.run n tr).ok.getD i false = u.ok) ∧
    (lastValid tr i = none →
       (PV_array.run n tr).values.getD i 0 = 0 ∧
       (PV_array.run n tr).timestamp.getD i 0 = 0 ∧
       (PV_array.run n tr).severity.getD i 0 = 0 ∧
       (PV_array.run n tr).status.getD i 0 = 0) ∧
    (∀ w, lastValid tr i = some w →
       (PV_array.run n tr).values.getD i 0 = w.data ∧
       (PV_array.run n tr).timestamp.getD i 0 = w.timestamp ∧
       (PV_array.run n tr).severity.getD i 0 = w.severity ∧
       (PV_array.run n tr).status.getD i 0 = w.status) := by
  induction tr using List.reverseRecOn with
  | nil =>
      refine ⟨?_, ?_, ?_, ?_⟩
      · intro _
        exact ⟨getD_replicate_lt n i false false hi,
               getD_replicate_lt n i false false hi⟩
      · intro u hu
        simp [lastUpdate] at hu
      · intro _
        exact ⟨getD_replicate_lt n i 0 0 hi, getD_replicate_lt n i 0 0 hi,
               getD_replicate_lt n i 0 0 hi, getD_replicate_lt n i 0 0 hi⟩
      · intro w hw
        simp [lastValid] at hw
  | append_singleton l a ih =>
      obtain ⟨v, j⟩ := a
      have htr' : ∀ p ∈ l, p.2 < n := fun p hp =>
        htr p (List.mem_append_left _ hp)
      obtain ⟨c1, c2, c3, c4⟩ := ih htr'
      obtain ⟨w1, w2, w3, w4, w5, w6⟩ := run_WF n l
      rw [run_concat, lastUpdate_concat, lastValid_concat]
      by_cases hj : j = i
      · subst hj
        rw [if_pos rfl]
        cases hv : v.ok
        · rw [if_neg (fun hc => by simp [hv] at hc)]
          obtain ⟨e1, e2, e3, e4⟩ := update_one_fields_of_not_ok
            (PV_array.run n l) v j hv
          refine ⟨?_, ?_, ?_, ?_⟩
          · intro h
            exact Option.noConfusion h
          · intro u hu
            injection hu with hu
            subst hu
            constructor
            · rw [update_one_seen_eq, getD_set_same _ _ _ _ (by rw [w2]; exact hi)]
            · rw [update_one_ok_eq, getD_set_same _ _ _ _ (by rw [w3]; exact hi), hv]
          · intro h
            obtain ⟨d1, d2, d3, d4⟩ := c3 h
            rw [e1, e2, e3, e4]
            exact ⟨d1, d2, d3, d4⟩
          · intro w hw
            obtain ⟨d1, d2, d3, d4⟩ := c4 w hw
            rw [e1, e2, e3, e4]
            exact ⟨d1, d2, d3, d4⟩
        · rw [if_pos ⟨rfl, rfl⟩]
          obtain ⟨e1, e2, e3, e4⟩ := update_one_fields_of_ok
            (PV_array.run n l) v j hv
          refine ⟨?_, ?_, ?_, ?_⟩
          · intro h
            exact Option.noConfusion h
          · intro u hu
            injection hu with hu
            subst hu
            constructor
            · rw [update_one_seen_eq, getD_set_same _ _ _ _ (by rw [w2]; exact hi)]
            · rw [update_one_ok_eq, getD_set_same _ _ _ _ (by rw [w3]; exact hi), hv]
          · intro h
            exact Option.noConfusion h
          · intro w hw
            injection hw with hw
            subst hw
            refine ⟨?_, ?_, ?_, ?_⟩
            · rw [e1, getD_set_same _ _ _ _ (by rw [w1]; exact hi)]
            · rw [e2, getD_set_same _ _ _ _ (by rw [w4]; exact hi)]
            · rw [e3, getD_set_same _ _ _ _ (by rw [w5]; exact hi)]
            · rw [e4, getD_set_same _ _ _ _ (by rw [w6]; exact hi)]
      · rw [if_neg hj, if_neg (fun hc => hj hc.1)]
        obtain ⟨e1, e2, e3, e4, e5, e6⟩ := update_one_other_slot
          (PV_array.run n l) v j i hj
        refine ⟨?_, ?_, ?_, ?_⟩
        · intro h
          obtain ⟨d1, d2⟩ := c1 h
          exact ⟨e1.trans d1, e2.trans d2⟩
        · intro u hu
          obtain ⟨d1, d2⟩ := c2 u hu
          exact ⟨e1.trans d1, e2.trans d2⟩
        · intro h
          obtain ⟨d1, d2, d3, d4⟩ := c3 h
          exact ⟨e3.trans d1, e4.trans d2, e5.trans d3, e6.trans d4⟩
        · intro w hw
          obtain ⟨d1, d2, d3, d4⟩ := c4 w hw
          exact ⟨e3.trans d1, e4.trans d2, e5.trans d3, e6.trans d4⟩

/-- When the most recent update for a slot is valid, it is also the most
recent valid update for that slot. -/
theorem lastValid_eq_lastUpdate_of_ok (tr : List (CAValue × Nat)) (i : Nat)
    (u : CAValue) (hu : lastUpdate tr i = some u) (hok : u.ok = true) :
    lastValid tr i = some u := by
  induction tr using List.reverseRecOn with
  | nil => simp [lastUpdate] at hu
  | append_singleton l a ih =>
      obtain ⟨v, j⟩ := a
      rw [lastUpdate_concat] at hu
      rw [lastValid_concat]
      by_cases hj : j = i
      · rw [if_pos hj] at hu
        injection hu with hu
        subst hu
        rw [if_pos ⟨hj, hok⟩]
      · rw [if_neg hj] at hu
        rw [if_neg (fun hc => hj hc.1)]
        exact ih hu

/-! ## Claims -/

/-- C1: after the i-th delivered update, `get()` returns exactly the i-th
delivered value, immediately and without side effects (the returned state is
the input state); and when no update has yet arrived, `get()` behaves as
`get_next` called with the fixed construction-time deadline. -/
theorem claim_C1 (α : Type) (d : Nat) (us : List α) (i : Nat)
    (h : i < us.length) :
    PV.get (PV.deliver (PVState.init α d) (us.take (i + 1))) =
      (Except.ok (us.get ⟨i, h⟩),
       PV.deliver (PVState.init α d) (us.take (i + 1))) ∧
    PV.get (PVState.init α d) = PV.get_next (PVState.init α d) d false := by
  refine ⟨?_, rfl⟩
  have ht : us.take (i + 1) = us.take i ++ [us.get ⟨i, h⟩] := by
    rw [List.take_succ, List.getElem?_eq_getElem h]
    rfl
  rw [ht, deliver_concat]
  rfl

/-- C1 witness: two updates 10, 20 delivered to a fresh cache with deadline
5; after the second update `get()` returns 20 and leaves the state alone. -/
theorem claim_C1_witness :
    PV.get (PV.deliver (PVState.init Nat 5) ([10, 20].take (1 + 1))) =
      (Except.ok ([10, 20].get ⟨1, by decide⟩),
       PV.deliver (PVState.init Nat 5) ([10, 20].take (1 + 1))) :=
  (claim_C1 Nat 5 [10, 20] 1 (by decide)).1

/-- C2: a per-slot update with a valid value sets `seen[i]`, sets `ok[i]`
to the delivered validity and overwrites payload and metadata at slot `i`;
an invalid update still sets `seen[i] = true` and `ok[i] = false` but leaves
the payload and metadata arrays entirely unchanged. -/
theorem claim_C2 (s : ArrayState) (n : Nat) (v : CAValue) (i : Nat)
    (hwf : s.WF n) (hi : i < n) :
    (PV_array.update_one s v i).seen.getD i false = true ∧
    (PV_array.update_one s v i).ok.getD i false = v.ok ∧
    (v.ok = true →
      (PV_array.update_one s v i).values = s.values.set i v.data ∧
      (PV_array.update_one s v i).timestamp = s.timestamp.set i v.timestamp ∧
      (PV_array.update_one s v i).severity = s.severity.set i v.severity ∧
      (PV_array.update_one s v i).status = s.status.set i v.status) ∧
    (v.ok = false →
      (PV_array.update_one s v i).values = s.values ∧
      (PV_array.update_one s v i).timestamp = s.timestamp ∧
      (PV_array.update_one s v i).severity = s.severity ∧
      (PV_array.update_one s v i).status = s.status) := by
  obtain ⟨h1, h2, h3, h4, h5, h6⟩ := hwf
  have hseen : i < s.seen.length := h2 ▸ hi
  have hok : i < s.ok.length := h3 ▸ hi
  refine ⟨?_, ?_, ?_, ?_⟩
  · have hs : (PV_array.update_one s v i).seen = s.seen.set i true := by
      cases hv : v.ok <;> simp [PV_array.update_one, hv]
    rw [hs, getD_set_same _ _ _ _ hseen]
  · have ho : (PV_array.update_one s v i).ok = s.ok.set i v.ok := by
      cases hv : v.ok <;> simp [PV_array.update_one, hv]
    rw [ho, getD_set_same _ _ _ _ hok]
  · intro hv
    simp [PV_array.update_one, hv]
  · intro hv
    simp [PV_array.update_one, hv]

/-- C2 witness: on a fresh two-slot cache, a valid update at slot 0 with
payload 7 and metadata (1, 2, 3) sets the slot; an invalid update would
leave the arrays unchanged (the implication holds vacuously here). -/
theorem claim_C2_witness :
    (PV_array.update_one (ArrayState.init 2) ⟨true, 7, 1, 2, 3⟩ 0).seen.getD 0 false = true ∧
    (PV_array.update_one (ArrayState.init 2) ⟨true, 7, 1, 2, 3⟩ 0).ok.getD 0 false =
      (⟨true, 7, 1, 2, 3⟩ : CAValue).ok ∧
    ((⟨true, 7, 1, 2, 3⟩ : CAValue).ok = true →
      (PV_array.update_one (ArrayState.init 2) ⟨true, 7, 1, 2, 3⟩ 0).values =
        (ArrayState.init 2).values.set 0 (⟨true, 7, 1, 2, 3⟩ : CAValue).data ∧
      (PV_array.update_one (ArrayState.init 2) ⟨true, 7, 1, 2, 3⟩ 0).timestamp =
        (ArrayState.init 2).timestamp.set 0 (⟨true, 7, 1, 2, 3⟩ : CAValue).timestamp ∧
      (PV_array.update_one (ArrayState.init 2) ⟨true, 7, 1, 2, 3⟩ 0).severity =
        (ArrayState.init 2).severity.set 0 (⟨true, 7, 1, 2, 3⟩ : CAValue).severity ∧
      (PV_array.update_one (ArrayState.init 2) ⟨true, 7, 1, 2, 3⟩ 0).status =
        (ArrayState.init 2).status.set 0 (⟨true, 7, 1, 2, 3⟩ : CAValue).status) ∧
    ((⟨true, 7, 1, 2, 3⟩ : CAValue).ok = false →
      (PV_array.update_one (ArrayState.init 2) ⟨true, 7, 1, 2, 3⟩ 0).values =
        (ArrayState.init 2).values ∧
      (PV_array.update_one (ArrayState.init 2) ⟨true, 7, 1, 2, 3⟩ 0).timestamp =
        (ArrayState.init 2).timestamp ∧
      (PV_array.update_one (ArrayState.init 2) ⟨true, 7, 1, 2, 3⟩ 0).severity =
        (ArrayState.init 2).severity ∧
      (PV_array.update_one (ArrayState.init 2) ⟨true, 7, 1, 2, 3⟩ 0).status =
        (ArrayState.init 2).status) :=
  claim_C2 (ArrayState.init 2) 2 ⟨true, 7, 1, 2, 3⟩ 0
    ⟨rfl, rfl, rfl, rfl, rfl, rfl⟩ (by decide)

/-- C3: `sync` applies the update logic only to slots whose `seen` flag is
still false; a slot already seen keeps its `values`, `seen`, `ok`,
`timestamp`, `severity` and `status` entries, whatever the batched read
returned for it. -/
theorem claim_C3 (s : ArrayState) (fetched : List CAValue) (i : Nat)
    (hseen : s.seen.getD i false = true) :
    (PV_array.sync s fetched).seen.getD i false = s.seen.getD i false ∧
    (PV_array.sync s fetched).ok.getD i false = s.ok.getD i false ∧
    (PV_array.sync s fetched).values.getD i 0 = s.values.getD i 0 ∧
    (PV_array.sync s fetched).timestamp.getD i 0 = s.timestamp.getD i 0 ∧
    (PV_array.sync s fetched).severity.getD i 0 = s.severity.getD i 0 ∧
    (PV_array.sync s fetched).status.getD i 0 = s.status.getD i 0 :=
  syncFrom_frozen_slot fetched s 0 i hseen

/-- C3 witness: slot 0 got an async update with payload 7; a `sync` whose
read returned 99 for slot 0 leaves slot 0 untouched. -/
theorem claim_C3_witness :
    (PV_array.sync (PV_array.update_one (ArrayState.init 2) ⟨true, 7, 1, 2, 3⟩ 0)
        [⟨true, 99, 9, 9, 9⟩, ⟨true, 88, 8, 8, 8⟩]).seen.getD 0 false =
      (PV_array.update_one (ArrayState.init 2) ⟨true, 7, 1, 2, 3⟩ 0).seen.getD 0 false ∧
    (PV_array.sync (PV_array.update_one (ArrayState.init 2) ⟨true, 7, 1, 2, 3⟩ 0)
        [⟨true, 99, 9, 9, 9⟩, ⟨true, 88, 8, 8, 8⟩]).ok.getD 0 false =
      (PV_array.update_one (ArrayState.init 2) ⟨true, 7, 1, 2, 3⟩ 0).ok.getD 0 false ∧
    (PV_array.sync (PV_array.update_one (ArrayState.init 2) ⟨true, 7, 1, 2, 3⟩ 0)
        [⟨true, 99, 9, 9, 9⟩, ⟨true, 88, 8, 8, 8⟩]).values.getD 0 0 =
      (PV_array.update_one (ArrayState.init 2) ⟨true, 7, 1, 2, 3⟩ 0).values.getD 0 0 ∧
    (PV_array.sync (PV_array.update_one (ArrayState.init 2) ⟨true, 7, 1, 2, 3⟩ 0)
        [⟨true, 99, 9, 9, 9⟩, ⟨true, 88, 8, 8, 8⟩]).timestamp.getD 0 0 =
      (PV_array.update_one (ArrayState.init 2) ⟨true, 7, 1, 2, 3⟩ 0).timestamp.getD 0 0 ∧
    (PV_array.sync (PV_array.update_one (ArrayState.init 2) ⟨true, 7, 1, 2, 3⟩ 0)
        [⟨true, 99, 9, 9, 9⟩, ⟨true, 88, 8, 8, 8⟩]).severity.getD 0 0 =
      (PV_array.update_one (ArrayState.init 2) ⟨true, 7, 1, 2, 3⟩ 0).severity.getD 0 0 ∧
    (PV_array.sync (PV_array.update_one (ArrayState.init 2) ⟨true, 7, 1, 2, 3⟩ 0)
        [⟨true, 99, 9, 9, 9⟩, ⟨true, 88, 8, 8, 8⟩]).status.getD 0 0 =
      (PV_array.update_one (ArrayState.init 2) ⟨true, 7, 1, 2, 3⟩ 0).status.getD 0 0 :=
  claim_C3 (PV_array.update_one (ArrayState.init 2) ⟨true, 7, 1, 2, 3⟩ 0)
    [⟨true, 99, 9, 9, 9⟩, ⟨true, 88, 8, 8, 8⟩] 0 (by decide)

/-- C6: the per-slot state machine never returns to Unseen.  In the array
cache, `seen[i]` stays true under any further `_update_one` or `sync`, a
delivery at slot `i` marks it seen and moves it to Valid or Invalid per the
delivered validity; in the single cache, the value stays present under
`_on_update` and is untouched by `reset`, `get_next` and `get`. -/
theorem claim_C6 (α : Type) (s : ArrayState) (n i j : Nat) (v : CAValue)
    (fetched : List CAValue) (p : PVState α) (w : α) (t : Nat) (r : Bool)
    (hwf : s.WF n) (hi : i < n) (hseen : s.seen.getD i false = true) :
    (PV_array.update_one s v j).seen.getD i false = true ∧
    (PV_array.sync s fetched).seen.getD i false = true ∧
    (PV_array.update_one s v i).seen.getD i false = true ∧
    (PV_array.update_one s v i).ok.getD i false = v.ok ∧
    (PV.on_update p w).value.isSome = true ∧
    (PV.reset p).value = p.value ∧
    (PV.get_next p t r).2.value = p.value ∧
    (PV.get p).2.value = p.value := by
  obtain ⟨h1, h2, h3, h4, h5, h6⟩ := hwf
  refine ⟨update_one_seen_mono _ _ _ _ hseen,
          syncFrom_seen_mono _ _ _ _ hseen, ?_, ?_, rfl, rfl, ?_, ?_⟩
  · rw [update_one_seen_eq, getD_set_same _ _ _ _ (h2 ▸ hi)]
  · rw [update_one_ok_eq, getD_set_same _ _ _ _ (h3 ▸ hi)]
  · cases r <;> rfl
  · cases hv : p.value <;> simp [PV.get, PV.get_next, hv]

/-- C6 witness: slot 0 is seen after one update; a later invalid update at
slot 1, a `sync`, and every single-cache operation leave it seen, and a
fresh delivery at slot 0 sets its validity flag from the delivered value. -/
theorem claim_C6_witness :
    (PV_array.update_one (PV_array.update_one (ArrayState.init 2) ⟨true, 7, 1, 2, 3⟩ 0)
        ⟨false, 0, 0, 0, 0⟩ 1).seen.getD 0 false = true ∧
    (PV_array.sync (PV_array.update_one (ArrayState.init 2) ⟨true, 7, 1, 2, 3⟩ 0)
        [⟨false, 0, 0, 0, 0⟩, ⟨true, 88, 8, 8, 8⟩]).seen.getD 0 false = true ∧
    (PV_array.update_one (PV_array.update_one (ArrayState.init 2) ⟨true, 7, 1, 2, 3⟩ 0)
        ⟨false, 0, 0, 0, 0⟩ 0).seen.getD 0 false = true ∧
    (PV_array.update_one (PV_array.update_one (ArrayState.init 2) ⟨true, 7, 1, 2, 3⟩ 0)
        ⟨false, 0, 0, 0, 0⟩ 0).ok.getD 0 false = (⟨false, 0, 0, 0, 0⟩ : CAValue).ok ∧
    (PV.on_update (PV.on_update (PVState.init Nat 5) 42) 43).value.isSome = true ∧
    (PV.reset (PV.on_update (PVState.init Nat 5) 42)).value =
      (PV.on_update (PVState.init Nat 5) 42).value ∧
    (PV.get_next (PV.on_update (PVState.init Nat 5) 42) 0 true).2.value =
      (PV.on_update (PVState.init Nat 5) 42).value ∧
    (PV.get (PV.on_update (PVState.init Nat 5) 42)).2.value =
      (PV.on_update (PVState.init Nat 5) 42).value :=
  claim_C6 Nat (PV_array.update_one (ArrayState.init 2) ⟨true, 7, 1, 2, 3⟩ 0)
    2 0 1 ⟨false, 0, 0, 0, 0⟩ [⟨false, 0, 0, 0, 0⟩, ⟨true, 88, 8, 8, 8⟩]
    (PV.on_update (PVState.init Nat 5) 42) 43 0 true
    ⟨rfl, rfl, rfl, rfl, rfl, rfl⟩ (by decide) (by decide)

/-- C9: `sync` marks every slot it touches as seen — also those whose
fetched value is invalid — so after one `sync` whose batched read returned a
value for every slot, all seen flags are true, and any further `sync` leaves
the whole cache state unchanged. -/
theorem claim_C9 (s : ArrayState) (n : Nat) (fetched fetched' : List CAValue)
    (hwf : s.WF n) (hlen : fetched.length = n) (hlen' : fetched'.length = n) :
    (PV_array.sync s fetched).seen = List.replicate n true ∧
    PV_array.sync (PV_array.sync s fetched) fetched' = PV_array.sync s fetched := by
  obtain ⟨h1, h2, h3, h4, h5, h6⟩ := hwf
  have hslen : (PV_array.sync s fetched).seen.length = n := by
    rw [PV_array.sync, syncFrom_seen_length, h2]
  have hall : ∀ i, i < n → (PV_array.sync s fetched).seen.getD i false = true := by
    intro i hi
    exact syncFrom_marks_seen fetched s 0 i (Nat.zero_le i) (by omega) (h2 ▸ hi)
  constructor
  · rw [List.eq_replicate_iff]
    refine ⟨hslen, ?_⟩
    intro b hb
    rw [List.mem_iff_getElem] at hb
    obtain ⟨m, hm, hbe⟩ := hb
    have hm' := hall m (hslen ▸ hm)
    rw [List.getD_eq_getElem _ _ hm] at hm'
    rw [← hbe]
    exact hm'
  · refine syncFrom_all_seen_id _ _ _ ?_
    intro i h1' h2'
    exact hall i (by omega)

/-- C9 witness: a fresh two-slot cache synced against one invalid and one
valid reading has both seen flags true, and a second `sync` with different
readings changes nothing. -/
theorem claim_C9_witness :
    (PV_array.sync (ArrayState.init 2)
        [⟨false, 0, 0, 0, 0⟩, ⟨true, 88, 8, 8, 8⟩]).seen = List.replicate 2 true ∧
    PV_array.sync (PV_array.sync (ArrayState.init 2)
        [⟨false, 0, 0, 0, 0⟩, ⟨true, 88, 8, 8, 8⟩])
        [⟨true, 1, 1, 1, 1⟩, ⟨true, 2, 2, 2, 2⟩] =
      PV_array.sync (ArrayState.init 2)
        [⟨false, 0, 0, 0, 0⟩, ⟨true, 88, 8, 8, 8⟩] :=
  claim_C9 (ArrayState.init 2) 2
    [⟨false, 0, 0, 0, 0⟩, ⟨true, 88, 8, 8, 8⟩]
    [⟨true, 1, 1, 1, 1⟩, ⟨true, 2, 2, 2, 2⟩]
    ⟨rfl, rfl, rfl, rfl, rfl, rfl⟩ rfl rfl

/-- C4 counterexample: slot 0 receives a valid update with metadata
(timestamp 1, severity 2, status 3) and then an invalid update carrying
(9, 8, 6).  The slot is seen, the most recent update for it is the invalid
one, yet the cached timestamp is still 1 and the severity still 2 — the
metadata do not reflect the most recent update when it is invalid. -/
theorem claim_C4_counterexample :
    (PV_array.run 1 [(⟨true, 5, 1, 2, 3⟩, 0), (⟨false, 7, 9, 8, 6⟩, 0)]).seen.getD 0 false = true ∧
    lastUpdate [(⟨true, 5, 1, 2, 3⟩, 0), (⟨false, 7, 9, 8, 6⟩, 0)] 0 =
      some ⟨false, 7, 9, 8, 6⟩ ∧
    (PV_array.run 1 [(⟨true, 5, 1, 2, 3⟩, 0), (⟨false, 7, 9, 8, 6⟩, 0)]).timestamp.getD 0 0 = 1 ∧
    (PV_array.run 1 [(⟨true, 5, 1, 2, 3⟩, 0), (⟨false, 7, 9, 8, 6⟩, 0)]).severity.getD 0 0 = 2 ∧
    ((1 : Int) = 9 → False) ∧ ((2 : Int) = 8 → False) := by
  decide

/-- C4 (amended): for every reachable state and slot `i`, `seen[i]` is true
and `ok[i]` equals the validity of the most recent update delivered for slot
`i`, valid or not; `values[i]`, `timestamp[i]`, `severity[i]`, `status[i]`
hold the data and metadata of the most recent valid update for slot `i`
(stale when the most recent update is invalid); and when the most recent
update is valid it coincides with the most recent valid update, so
`ok[i] = true` implies `values[i]` holds its real data. -/
theorem claim_C4 (n : Nat) (tr : List (CAValue × Nat)) (i : Nat)
    (u w : CAValue) (htr : ∀ p ∈ tr, p.2 < n) (hi : i < n)
    (hu : lastUpdate tr i = some u) (hw : lastValid tr i = some w) :
    (PV_array.run n tr).seen.getD i false = true ∧
    (PV_array.run n tr).ok.getD i false = u.ok ∧
    (PV_array.run n tr).values.getD i 0 = w.data ∧
    (PV_array.run n tr).timestamp.getD i 0 = w.timestamp ∧
    (PV_array.run n tr).severity.getD i 0 = w.severity ∧
    (PV_array.run n tr).status.getD i 0 = w.status ∧
    (u.ok = true → u = w) := by
  obtain ⟨c1, c2, c3, c4⟩ := run_slot_spec n tr i htr hi
  obtain ⟨s1, s2⟩ := c2 u hu
  obtain ⟨v1, v2, v3, v4⟩ := c4 w hw
  refine ⟨s1, s2, v1, v2, v3, v4, ?_⟩
  intro hok
  have h2 := lastValid_eq_lastUpdate_of_ok tr i u hu hok
  rw [hw] at h2
  injection h2 with h2
  exact h2.symm

/-- C4 witness: on the valid-then-invalid trace at slot 0, the slot is seen,
`ok` is false (the invalid last update), and payload and metadata still hold
the earlier valid update's (5, 1, 2, 3). -/
theorem claim_C4_witness :
    (PV_array.run 1 [(⟨true, 5, 1, 2, 3⟩, 0), (⟨false, 7, 9, 8, 6⟩, 0)]).seen.getD 0 false = true ∧
    (PV_array.run 1 [(⟨true, 5, 1, 2, 3⟩, 0), (⟨false, 7, 9, 8, 6⟩, 0)]).ok.getD 0 false =
      (⟨false, 7, 9, 8, 6⟩ : CAValue).ok ∧
    (PV_array.run 1 [(⟨true, 5, 1, 2, 3⟩, 0), (⟨false, 7, 9, 8, 6⟩, 0)]).values.getD 0 0 =
      (⟨true, 5, 1, 2, 3⟩ : CAValue).data ∧
    (PV_array.run 1 [(⟨true, 5, 1, 2, 3⟩, 0), (⟨false, 7, 9, 8, 6⟩, 0)]).timestamp.getD 0 0 =
      (⟨true, 5, 1, 2, 3⟩ : CAValue).timestamp ∧
    (PV_array.run 1 [(⟨true, 5, 1, 2, 3⟩, 0), (⟨false, 7, 9, 8, 6⟩, 0)]).severity.getD 0 0 =
      (⟨true, 5, 1, 2, 3⟩ : CAValue).severity ∧
    (PV_array.run 1 [(⟨true, 5, 1, 2, 3⟩, 0), (⟨false, 7, 9, 8, 6⟩, 0)]).status.getD 0 0 =
      (⟨true, 5, 1, 2, 3⟩ : CAValue).status ∧
    ((⟨false, 7, 9, 8, 6⟩ : CAValue).ok = true →
      (⟨false, 7, 9, 8, 6⟩ : CAValue) = ⟨true, 5, 1, 2, 3⟩) :=
  claim_C4 1 [(⟨true, 5, 1, 2, 3⟩, 0), (⟨false, 7, 9, 8, 6⟩, 0)] 0
    ⟨false, 7, 9, 8, 6⟩ ⟨true, 5, 1, 2, 3⟩ (by decide) (by decide) rfl rfl

/-- C5: after `reset()`, a `get_next(timeout = 0)` with no intervening update
fails with `Timeout` and leaves `latest_value` unchanged; after `reset()`
followed by exactly one delivered update, `get_next` returns that update's
value. -/
theorem claim_C5 (α : Type) (s : PVState α) (v : α) :
    (PV.get_next (PV.reset s) 0 false).1 = Except.error CAErr.timeout ∧
    (PV.get_next (PV.reset s) 0 false).2.value = s.value ∧
    (PV.get_next (PV.on_update (PV.reset s) v) 0 false).1 = Except.ok v := by
  refine ⟨rfl, rfl, rfl⟩

/-- C7: `close()` is idempotent on both caches — a second call changes
nothing and releases nothing a second time (the external `Monitor.close`
being idempotent by contract) — and the cached value state is unaffected. -/
theorem claim_C7 (α : Type) (s : PVState α) (a : ArrayState) :
    PV.close (PV.close s) = PV.close s ∧
    (PV.close s).value = s.value ∧
    (PV.close s).event = s.event ∧
    PV_array.close (PV_array.close a) = PV_array.close a ∧
    (PV_array.close a).values = a.values ∧
    (PV_array.close a).seen = a.seen ∧
    (PV_array.close a).ok = a.ok ∧
    (PV_array.close a).timestamp = a.timestamp ∧
    (PV_array.close a).severity = a.severity ∧
    (PV_array.close a).status = a.status := by
  refine ⟨rfl, rfl, rfl, ?_, rfl, rfl, rfl, rfl, rfl, rfl⟩
  simp [PV_array.close, Monitor.close, List.map_map, Function.comp]

/-- C10: an `ArrayValueCache` over an empty sequence of names reports
`all_ok = true` (vacuously: `numpy.all` of an empty boolean array) and
`get()` returns an empty array, though no update was ever delivered. -/
theorem claim_C10 :
    PV_array.all_ok (ArrayState.init 0) = true ∧
    PV_array.get (ArrayState.init 0) = [] := by
  refine ⟨rfl, rfl⟩
